import Mathlib

/-!
Verification development for the fief-js authentication client.

The definitions below are a shallow embedding of the TypeScript sources:
the crypto helper (src/crypto/node.ts), the Fief client facade
(validateAccessToken, decodeIDToken, getOpenIDConfiguration, getJWKS),
the browser session orchestrator (src/browser.ts authCallback) and the
server request-authentication contract (src/server.ts authenticate).
Machine integers are modelled as Nat with explicit reduction modulo 2^32
where the source relies on 32-bit arithmetic (SHA-256).  The external
JOSE collaborator (jose.jwtVerify, jose.compactDecrypt) is modelled by
its documented contract: signature check first, then expiry validation,
every failure being a JOSEError, with JWTExpired raised for an elapsed
exp claim.
-/

namespace Fief

/-! ### SHA-256 (embedding of crypto.subtle.digest over byte lists) -/

def w32 (n : Nat) : Nat := n % 4294967296

def rotr32 (n x : Nat) : Nat := w32 ((x >>> n) ||| (x <<< (32 - n)))

def shr32 (n x : Nat) : Nat := x >>> n

def not32 (x : Nat) : Nat := x ^^^ 0xFFFFFFFF

def bsig0 (x : Nat) : Nat := (rotr32 2 x) ^^^ (rotr32 13 x) ^^^ (rotr32 22 x)

def bsig1 (x : Nat) : Nat := (rotr32 6 x) ^^^ (rotr32 11 x) ^^^ (rotr32 25 x)

def ssig0 (x : Nat) : Nat := (rotr32 7 x) ^^^ (rotr32 18 x) ^^^ (shr32 3 x)

def ssig1 (x : Nat) : Nat := (rotr32 17 x) ^^^ (rotr32 19 x) ^^^ (shr32 10 x)

def chF (x y z : Nat) : Nat := (x &&& y) ^^^ ((not32 x) &&& z)

def majF (x y z : Nat) : Nat := (x &&& y) ^^^ (x &&& z) ^^^ (y &&& z)

def sha256K : List Nat :=
  [1116352408, 1899447441, 3049323471, 3921009573, 961987163, 1508970993,
   2453635748, 2870763221, 3624381080, 310598401, 607225278, 1426881987,
   1925078388, 2162078206, 2614888103, 3248222580, 3835390401, 4022224774,
   264347078, 604807628, 770255983, 1249150122, 1555081692, 1996064986,
   2554220882, 2821834349, 2952996808, 3210313671, 3336571891, 3584528711,
   113926993, 338241895, 666307205, 773529912, 1294757372, 1396182291,
   1695183700, 1986661051, 2177026350, 2456956037, 2730485921, 2820302411,
   3259730800, 3345764771, 3516065817, 3600352804, 4094571909, 275423344,
   430227734, 506948616, 659060556, 883997877, 958139571, 1322822218,
   1537002063, 1747873779, 1955562222, 2024104815, 2227730452, 2361852424,
   2428436474, 2756734187, 3204031479, 3329325298]

def sha256H0 : List Nat :=
  [1779033703, 3144134277, 1013904242, 2773480762,
   1359893119, 2600822924, 528734635, 1541459225]

def sha256Pad (msg : List Nat) : List Nat :=
  let ml := msg.length * 8
  let padZeros := (55 + 64 - msg.length % 64) % 64
  msg ++ [0x80] ++ List.replicate padZeros 0
      ++ (List.range 8).map (fun i => (ml >>> ((7 - i) * 8)) &&& 0xFF)

def bytesToWords : List Nat → List Nat
  | a :: b :: c :: d :: rest => (((a * 256 + b) * 256 + c) * 256 + d) :: bytesToWords rest
  | _ => []

def sha256Schedule (block : List Nat) : Array Nat :=
  let w0 := (bytesToWords block).toArray
  (List.range 48).foldl
    (fun w i =>
      let t := w32 (ssig1 (w.getD (i + 14) 0) + w.getD (i + 9) 0
        + ssig0 (w.getD (i + 1) 0) + w.getD i 0)
      w.push t)
    w0

def sha256Compress (hs : List Nat) (block : List Nat) : List Nat :=
  let w := sha256Schedule block
  let step := fun (st : Nat × Nat × Nat × Nat × Nat × Nat × Nat × Nat) (i : Nat) =>
    let (a, b, c, d, e, f, g, h) := st
    let t1 := w32 (h + bsig1 e + chF e f g + sha256K.getD i 0 + w.getD i 0)
    let t2 := w32 (bsig0 a + majF a b c)
    (w32 (t1 + t2), a, b, c, w32 (d + t1), e, f, g)
  let init := (hs.getD 0 0, hs.getD 1 0, hs.getD 2 0, hs.getD 3 0,
               hs.getD 4 0, hs.getD 5 0, hs.getD 6 0, hs.getD 7 0)
  let fin := (List.range 64).foldl step init
  let (a, b, c, d, e, f, g, h) := fin
  [w32 (hs.getD 0 0 + a), w32 (hs.getD 1 0 + b), w32 (hs.getD 2 0 + c), w32 (hs.getD 3 0 + d),
   w32 (hs.getD 4 0 + e), w32 (hs.getD 5 0 + f), w32 (hs.getD 6 0 + g), w32 (hs.getD 7 0 + h)]

def sha256 (msg : List Nat) : List Nat :=
  let padded := sha256Pad msg
  let nblocks := padded.length / 64
  let fin := (List.range nblocks).foldl
    (fun hs i => sha256Compress hs ((padded.drop (64 * i)).take 64)) sha256H0
  fin.flatMap (fun wv => [(wv >>> 24) &&& 0xFF, (wv >>> 16) &&& 0xFF, (wv >>> 8) &&& 0xFF, wv &&& 0xFF])

/-! ### URL-safe unpadded base64 (Buffer.toString with the base64url alphabet) -/

def b64urlAlphabet : List Char :=
  "ABCDEFGHIJKLMNOPQRSTUVWXYZabcdefghijklmnopqrstuvwxyz0123456789-_".toList

def b64Char (n : Nat) : Char := b64urlAlphabet.getD n 'A'

def base64urlEncode : List Nat → List Char
  | a :: b :: c :: rest =>
      let n := a * 65536 + b * 256 + c
      b64Char (n >>> 18) :: b64Char ((n >>> 12) &&& 63) :: b64Char ((n >>> 6) &&& 63)
        :: b64Char (n &&& 63) :: base64urlEncode rest
  | [a, b] =>
      let n := a * 65536 + b * 256
      [b64Char (n >>> 18), b64Char ((n >>> 12) &&& 63), b64Char ((n >>> 6) &&& 63)]
  | [a] =>
      let n := a * 65536
      [b64Char (n >>> 18), b64Char ((n >>> 12) &&& 63)]
  | [] => []

def utf8EncodeCodepoint (n : Nat) : List Nat :=
  if n < 0x80 then [n]
  else if n < 0x800 then [0xC0 ||| (n >>> 6), 0x80 ||| (n &&& 0x3F)]
  else if n < 0x10000 then
    [0xE0 ||| (n >>> 12), 0x80 ||| ((n >>> 6) &&& 0x3F), 0x80 ||| (n &&& 0x3F)]
  else
    [0xF0 ||| (n >>> 18), 0x80 ||| ((n >>> 12) &&& 0x3F),
     0x80 ||| ((n >>> 6) &&& 0x3F), 0x80 ||| (n &&& 0x3F)]

def utf8Bytes (s : String) : List Nat := s.toList.flatMap (fun c => utf8EncodeCodepoint c.toNat)

/-! ### NodeJSCryptoHelper (src/crypto/node.ts) -/

/-- Embedding of NodeJSCryptoHelper.getValidationHash: SHA-256 of the UTF-8
bytes, first half of the digest, URL-safe unpadded base64. -/
def getValidationHash (value : String) : String :=
  let hashBuffer := sha256 (utf8Bytes value)
  let halfHash := hashBuffer.take (hashBuffer.length / 2)
  String.mk (base64urlEncode halfHash)

/-- Embedding of NodeJSCryptoHelper.isValidHash. -/
def isValidHash (value hash : String) : Bool :=
  getValidationHash value == hash

inductive CodeChallengeMethod
  | plain
  | S256
deriving DecidableEq

/-- Embedding of NodeJSCryptoHelper.getCodeChallenge: for plain, the code
itself; for S256, the URL-safe unpadded base64 of the full SHA-256 digest
of the UTF-8 bytes. -/
def getCodeChallenge (code : String) (method : CodeChallengeMethod) : String :=
  match method with
  | .plain => code
  | .S256 => String.mk (base64urlEncode (sha256 (utf8Bytes code)))

/-! ### ACR levels (client.ts: FiefACR, ACR_LEVELS_ORDER, compareACR) -/

inductive FiefACR
  | LEVEL_ZERO
  | LEVEL_ONE
deriving DecidableEq

/-- String value of the FiefACR enum member, as in the TypeScript enum. -/
def FiefACR.str : FiefACR → String
  | .LEVEL_ZERO => "0"
  | .LEVEL_ONE => "1"

def ACR_LEVELS_ORDER : List FiefACR := [.LEVEL_ZERO, .LEVEL_ONE]

/-- JavaScript Array.prototype.findIndex: index of the first match, -1 if none. -/
def jsFindIndex {α : Type} (p : α → Bool) (l : List α) : Int :=
  match l.findIdx? p with
  | some i => (i : Int)
  | none => -1

/-- Embedding of compareACR: difference of the indices of the two levels in
ACR_LEVELS_ORDER. -/
def compareACR (a b : FiefACR) : Int :=
  jsFindIndex (fun acr => acr = a) ACR_LEVELS_ORDER
    - jsFindIndex (fun acr => acr = b) ACR_LEVELS_ORDER

/-- Conversion used to model the check
Object.values(FiefACR).includes(acr) followed by using the claim value as
a FiefACR: some level exactly when the raw claim string is one of the
defined enum values. -/
def FiefACR.fromString? (s : String) : Option FiefACR :=
  if s = "0" then some .LEVEL_ZERO
  else if s = "1" then some .LEVEL_ONE
  else none

/-! ### JOSE collaborator model and access-token validation
(client.ts Fief.validateAccessToken) -/

/-- JavaScript String.prototype.split with a single-character separator:
every occurrence splits, empty pieces are kept, and the empty string
yields one empty piece. -/
def jsSplitAux (sep : Char) (acc : List Char) : List Char → List String
  | [] => [String.mk acc.reverse]
  | c :: rest =>
    if c = sep then String.mk acc.reverse :: jsSplitAux sep [] rest
    else jsSplitAux sep (c :: acc) rest

def jsSplit (sep : Char) (s : String) : List String :=
  jsSplitAux sep [] s.toList

/-- Payload claims of an access token relevant to validateAccessToken.
Absent JWT claims are none. -/
structure AccessTokenClaims where
  sub : String
  scope : Option String
  acr : Option String
  permissions : Option (List String)
deriving DecidableEq

/-- A token as seen through the JOSE collaborator: whether its compact
signature verifies against the supplied key set, its exp claim, and its
payload. -/
structure SignedJWT (α : Type) where
  sigOk : Bool
  exp : Option Int
  claims : α
deriving DecidableEq

/-- Outcome of jose.jwtVerify: the payload on success, JWTExpired for an
elapsed exp claim, or some other JOSEError. -/
inductive JWTVerifyResult (α : Type)
  | ok (claims : α)
  | expired
  | joseError
deriving DecidableEq

/-- Modelled from the documented contract of the external JOSE collaborator
(jose.jwtVerify, called with a key set and no further options): the
signature is verified first (failure is a JOSEError), then the exp claim
is validated against the current time (an elapsed exp raises JWTExpired). -/
def jwtVerify {α : Type} (now : Int) (t : SignedJWT α) : JWTVerifyResult α :=
  if t.sigOk = false then .joseError
  else
    match t.exp with
    | some e => if e ≤ now then .expired else .ok t.claims
    | none => .ok t.claims

/-- Error taxonomy of the client (client.ts), restricted to the error
classes token verification can raise. -/
inductive FiefError
  | accessTokenInvalid
  | accessTokenExpired
  | accessTokenMissingScope
  | accessTokenACRTooLow
  | accessTokenMissingPermission
  | idTokenInvalid
deriving DecidableEq

/-- Validation result object (client.ts FiefAccessTokenInfo). -/
structure FiefAccessTokenInfo where
  id : String
  scope : List String
  acr : FiefACR
  permissions : List String
  access_token : String
deriving DecidableEq

/-- Embedding of Fief.validateAccessToken (the ACR-aware version of
client.ts).  The token string is opaque; its verification behaviour under
the cached key set is the SignedJWT view.  Each forEach loop throwing on
the first unmatched requirement is modelled by the corresponding all/any
check, which yields the same single error exactly when some requirement
is unmatched. -/
def validateAccessToken (now : Int) (t : SignedJWT AccessTokenClaims) (raw : String)
    (requiredScopes : Option (List String))
    (requiredACR : Option FiefACR)
    (requiredPermissions : Option (List String)) :
    Except FiefError FiefAccessTokenInfo :=
  match jwtVerify now t with
  | .expired => .error .accessTokenExpired
  | .joseError => .error .accessTokenInvalid
  | .ok claims =>
    match claims.scope with
    | none => .error .accessTokenInvalid
    | some scopeStr =>
      let accessTokenScopes := jsSplit ' ' scopeStr
      let scopeCheck : Bool :=
        match requiredScopes with
        | none => true
        | some reqs => reqs.all (fun r => accessTokenScopes.any (fun s => s == r))
      if scopeCheck = false then .error .accessTokenMissingScope
      else
        match claims.acr with
        | none => .error .accessTokenInvalid
        | some acrStr =>
          match FiefACR.fromString? acrStr with
          | none => .error .accessTokenInvalid
          | some acr =>
            let acrCheck : Bool :=
              match requiredACR with
              | none => true
              | some req => !(compareACR acr req < 0)
            if acrCheck = false then .error .accessTokenACRTooLow
            else
              match claims.permissions with
              | none => .error .accessTokenInvalid
              | some permissions =>
                let permCheck : Bool :=
                  match requiredPermissions with
                  | none => true
                  | some reqs => reqs.all (fun r => permissions.any (fun p => p == r))
                if permCheck = false then .error .accessTokenMissingPermission
                else .ok
                  { id := claims.sub
                    scope := accessTokenScopes
                    acr := acr
                    permissions := permissions
                    access_token := raw }

/-! ### ID-token decoding (client.ts Fief.decodeIDToken) -/

/-- Claims of an ID token relevant to decodeIDToken: the optional hash
binding claims, with the rest of the payload kept opaque. -/
structure IDTokenClaims where
  sub : String
  cHash : Option String
  atHash : Option String
deriving DecidableEq

/-- The compact ID token as seen through the JOSE collaborator: whether
jose.compactDecrypt succeeds when an encryption key is configured, and
the signed JWT found inside. -/
structure EncodedIDToken where
  decryptOk : Bool
  jwt : SignedJWT IDTokenClaims
deriving DecidableEq

/-- JavaScript truthiness test used for the code and accessToken
parameters: undefined and the empty string are both falsy. -/
def jsFalsy (s : Option String) : Bool :=
  match s with
  | none => true
  | some v => v == ""

/-- The guarded binding check decodeIDToken performs for each of its two
hash claims: an absent claim passes; a present claim requires a truthy
corresponding value whose validation hash matches. -/
def hashClaimCheck (claim value : Option String) : Bool :=
  match claim with
  | none => true
  | some h =>
    if jsFalsy value then false
    else
      match value with
      | some v => isValidHash v h
      | none => false

/-- Embedding of Fief.decodeIDToken.  If an encryption key is configured
the token is decrypted first; the signed token is then verified through
jose.jwtVerify; a present c_hash (resp. at_hash) claim must be the valid
hash of a supplied code (resp. accessToken).  Every JOSEError raised by
decryption or verification, and every failed binding check, is mapped to
FiefIdTokenInvalid. -/
def decodeIDToken (now : Int) (hasEncryptionKey : Bool) (idToken : EncodedIDToken)
    (code : Option String) (accessToken : Option String) :
    Except FiefError IDTokenClaims :=
  if hasEncryptionKey = true ∧ idToken.decryptOk = false then .error .idTokenInvalid
  else
    match jwtVerify now idToken.jwt with
    | .expired => .error .idTokenInvalid
    | .joseError => .error .idTokenInvalid
    | .ok claims =>
      if hashClaimCheck claims.cHash code = false then .error .idTokenInvalid
      else if hashClaimCheck claims.atHash accessToken = false then .error .idTokenInvalid
      else .ok claims

/-! ### Discovery and key-set caching
(client.ts Fief.getOpenIDConfiguration and Fief.getJWKS) -/

/-- An HTTP response from the provider, as used by the discovery cache:
its status and an opaque parsed body. -/
structure FetchResponse where
  status : Nat
  body : String
deriving DecidableEq

/-- Fief.handleRequestError raises FiefRequestError outside 200..299;
this predicate holds exactly when it does not raise. -/
def handleRequestOk (status : Nat) : Bool :=
  !(status < 200 || status > 299)

/-- The two memoization fields of a Fief client instance. -/
structure ClientCacheState where
  openIDConfiguration : Option String
  jwks : Option String
deriving DecidableEq

/-- Network effects of one cache-touching call: fetches attempted and
fetches that came back 2xx and were cached, per resource. -/
structure FetchEffects where
  configFetches : Nat
  configSuccesses : Nat
  jwksFetches : Nat
  jwksSuccesses : Nat
deriving DecidableEq

def FetchEffects.none : FetchEffects :=
  { configFetches := 0, configSuccesses := 0, jwksFetches := 0, jwksSuccesses := 0 }

def FetchEffects.add (a b : FetchEffects) : FetchEffects :=
  { configFetches := a.configFetches + b.configFetches
    configSuccesses := a.configSuccesses + b.configSuccesses
    jwksFetches := a.jwksFetches + b.jwksFetches
    jwksSuccesses := a.jwksSuccesses + b.jwksSuccesses }

/-- Embedding of Fief.getOpenIDConfiguration.  The response the provider
would give to the discovery request is an explicit argument.  The source
stores the promise of response.json() in the cache field; it is modelled
as the parsed body it resolves to. -/
def getOpenIDConfiguration (st : ClientCacheState) (resp : FetchResponse) :
    Except Nat String × ClientCacheState × FetchEffects :=
  match st.openIDConfiguration with
  | some conf => (.ok conf, st, FetchEffects.none)
  | none =>
    if handleRequestOk resp.status
    then (.ok resp.body, { st with openIDConfiguration := some resp.body },
          { FetchEffects.none with configFetches := 1, configSuccesses := 1 })
    else (.error resp.status, st, { FetchEffects.none with configFetches := 1 })

/-- Embedding of Fief.getJWKS: return the cached key set, otherwise
resolve the configuration (possibly fetching it) and fetch the JWKS URI,
caching the body only on a 2xx response. -/
def getJWKS (st : ClientCacheState) (confResp jwksResp : FetchResponse) :
    Except Nat String × ClientCacheState × FetchEffects :=
  match st.jwks with
  | some keys => (.ok keys, st, FetchEffects.none)
  | none =>
    let confStep := getOpenIDConfiguration st confResp
    match confStep.1 with
    | .error s => (.error s, confStep.2.1, confStep.2.2)
    | .ok _ =>
      if handleRequestOk jwksResp.status
      then (.ok jwksResp.body, { confStep.2.1 with jwks := some jwksResp.body },
            FetchEffects.add confStep.2.2
              { FetchEffects.none with jwksFetches := 1, jwksSuccesses := 1 })
      else (.error jwksResp.status, confStep.2.1,
            FetchEffects.add confStep.2.2 { FetchEffects.none with jwksFetches := 1 })

/-- One client operation touching the caches, with the provider responses
it would observe. -/
inductive ClientCall
  | configCall (resp : FetchResponse)
  | jwksCall (confResp jwksResp : FetchResponse)

/-- Run a sequence of cache-touching calls on one client instance,
accumulating the network effects. -/
def runClientCalls (st : ClientCacheState) : List ClientCall → ClientCacheState × FetchEffects
  | [] => (st, FetchEffects.none)
  | .configCall resp :: rest =>
    let step := getOpenIDConfiguration st resp
    let restRun := runClientCalls step.2.1 rest
    (restRun.1, FetchEffects.add step.2.2 restRun.2)
  | .jwksCall confResp jwksResp :: rest =>
    let step := getJWKS st confResp jwksResp
    let restRun := runClientCalls step.2.1 rest
    (restRun.1, FetchEffects.add step.2.2 restRun.2)

/-! ### Browser session orchestrator (browser.ts FiefAuth.authCallback) -/

/-- Opaque user information object. -/
abbrev FiefUserInfo := String

/-- The injectable session storage: user info, token bundle (opaque) and
the PKCE code verifier. -/
structure BrowserStorage where
  userinfo : Option FiefUserInfo
  tokenInfo : Option String
  codeVerifier : Option String
deriving DecidableEq

/-- State of one browser FiefAuth instance: the session storage and the
pendingAuthCallbacks set, the latter kept as a duplicate-free list. -/
structure BrowserState where
  pending : List String
  storage : BrowserStorage
deriving DecidableEq

/-- Query parameters read from the current location at callback time. -/
structure CallbackParams where
  error : Option String
  errorDescription : Option String
  code : Option String
deriving DecidableEq

/-- How the client.authCallback code exchange settles: a resolved promise
carrying the token response and user info, or a rejection (provider
error, network failure, cancellation or timeout). -/
inductive ExchangeOutcome
  | resolved (tokenResponse : String) (userinfo : FiefUserInfo)
  | rejected
deriving DecidableEq

/-- Observable completion of browser authCallback. -/
inductive CallbackResult
  | returned
  | authorizeError (error : String) (description : Option String)
  | exchangeFailed
deriving DecidableEq

def setInsert (l : List String) (x : String) : List String :=
  if l.contains x then l else l ++ [x]

def setDelete (l : List String) (x : String) : List String :=
  l.filter (fun y => y ≠ x)

/-- JavaScript coercion codeVerifier or undefined: null and the empty
string both become undefined. -/
def jsOrUndefined (s : Option String) : Option String :=
  match s with
  | some v => if v == "" then none else some v
  | none => none

/-- Embedding of browser FiefAuth.authCallback.  The exchange argument is
the behaviour of client.authCallback for a given code and code verifier.
The Bool records whether a token-endpoint request was sent.  A rejected
exchange propagates out of the function at the await, so the statements
after it (including the pendingAuthCallbacks delete) do not run. -/
def authCallback (st : BrowserState) (params : CallbackParams)
    (exchange : String → Option String → ExchangeOutcome) :
    CallbackResult × BrowserState × Bool :=
  match params.error with
  | some e => (.authorizeError e params.errorDescription, st, false)
  | none =>
    match params.code with
    | none => (.authorizeError "missing_code" none, st, false)
    | some code =>
      if st.pending.contains code then (.returned, st, false)
      else
        let codeVerifier := st.storage.codeVerifier
        let st1 : BrowserState :=
          { st with storage := { st.storage with codeVerifier := none } }
        let st2 : BrowserState := { st1 with pending := setInsert st1.pending code }
        match exchange code (jsOrUndefined codeVerifier) with
        | .rejected => (.exchangeFailed, st2, true)
        | .resolved tokenResponse userinfo =>
          let st3 : BrowserState := { st2 with pending := setDelete st2.pending code }
          (.returned,
           { st3 with storage :=
              { st3.storage with tokenInfo := some tokenResponse, userinfo := some userinfo } },
           true)

/-! ### Server request-authentication contract (server.ts FiefAuth.authenticate) -/

/-- Parameters of the authenticate factory (server.ts
AuthenticateRequestParameters): optional, scope, permissions, refresh.
The interface defines no acr field. -/
structure AuthenticateRequestParameters where
  optional : Bool
  scope : Option (List String)
  permissions : Option (List String)
  refresh : Bool
deriving DecidableEq

/-- Errors the request-authentication contract raises. -/
inductive ServerError
  | unauthorized
  | forbidden
  | unhandled (e : FiefError)
deriving DecidableEq

/-- Outcome of the client.validateAccessToken call made by authenticate. -/
inductive ValidationOutcome
  | ok (info : FiefAccessTokenInfo)
  | err (e : FiefError)

/-- The injected environment of one request: the token getter result, the
validation behaviour (as a function of the token and the two forwarded
requirement lists), the optional user-info cache content (none when the
FiefAuth was constructed without a cache), and the provider userinfo
endpoint keyed by access token. -/
structure AuthContext where
  token : Option String
  validate : String → Option (List String) → Option (List String) → ValidationOutcome
  cache : Option (List (String × FiefUserInfo))
  providerUserinfo : String → FiefUserInfo

/-- Side effects of one authenticate call. -/
structure AuthEffects where
  userinfoCalled : Bool
  cacheWrites : List (String × FiefUserInfo)
deriving DecidableEq

def AuthEffects.none : AuthEffects := { userinfoCalled := false, cacheWrites := [] }

/-- Result object (server.ts AuthenticateRequestResult). -/
structure AuthenticateRequestResult where
  accessTokenInfo : Option FiefAccessTokenInfo
  user : Option FiefUserInfo
deriving DecidableEq

def cacheGet (entries : List (String × FiefUserInfo)) (id : String) : Option FiefUserInfo :=
  (entries.find? (fun p => p.1 == id)).map (fun p => p.2)

/-- Embedding of server.ts FiefAuth.authenticate.  The handler extracts
the token, raises unauthorized when it is absent and optional is not
true, validates it forwarding the scope and permissions parameters,
maps invalid/expired to unauthorized and missing scope or permission to
forbidden, rethrows other errors unchanged, and on success resolves the
user from the cache unless refresh is true or the cache misses, in which
case it calls the provider userinfo endpoint and writes the result back. -/
def authenticate (params : AuthenticateRequestParameters) (ctx : AuthContext) :
    Except ServerError (AuthenticateRequestResult × AuthEffects) :=
  match ctx.token with
  | none =>
    if params.optional = true
    then .ok ({ accessTokenInfo := none, user := none }, AuthEffects.none)
    else .error .unauthorized
  | some token =>
    match ctx.validate token params.scope params.permissions with
    | .err e =>
      match e with
      | .accessTokenInvalid => .error .unauthorized
      | .accessTokenExpired => .error .unauthorized
      | .accessTokenMissingScope => .error .forbidden
      | .accessTokenMissingPermission => .error .forbidden
      | other => .error (.unhandled other)
    | .ok info =>
      match ctx.cache with
      | none => .ok ({ accessTokenInfo := some info, user := none }, AuthEffects.none)
      | some entries =>
        match cacheGet entries info.id with
        | some cached =>
          if params.refresh = true then
            let fresh := ctx.providerUserinfo info.access_token
            .ok ({ accessTokenInfo := some info, user := some fresh },
                 { userinfoCalled := true, cacheWrites := [(info.id, fresh)] })
          else
            .ok ({ accessTokenInfo := some info, user := some cached }, AuthEffects.none)
        | none =>
          let fresh := ctx.providerUserinfo info.access_token
          .ok ({ accessTokenInfo := some info, user := some fresh },
               { userinfoCalled := true, cacheWrites := [(info.id, fresh)] })

/-! ## Theorems -/

instance {ε α : Type} [DecidableEq ε] [DecidableEq α] : DecidableEq (Except ε α) :=
  fun a b =>
    match a, b with
    | .ok x, .ok y =>
      if h : x = y then isTrue (by rw [h])
      else isFalse (by intro hc; cases hc; exact h rfl)
    | .error x, .error y =>
      if h : x = y then isTrue (by rw [h])
      else isFalse (by intro hc; cases hc; exact h rfl)
    | .ok _, .error _ => isFalse (by intro hc; cases hc)
    | .error _, .ok _ => isFalse (by intro hc; cases hc)


/-- jose.jwtVerify succeeds when the signature is valid and the exp claim,
if present, lies in the future. -/
theorem jwtVerify_ok {α : Type} (now : Int) (t : SignedJWT α) (hsig : t.sigOk = true)
    (hexp : ∀ e, t.exp = some e → now < e) : jwtVerify now t = .ok t.claims := by
  unfold jwtVerify
  rw [hsig]
  simp only [Bool.true_eq_false, if_false]
  cases hef : t.exp with
  | none => rfl
  | some e => simp [not_le.mpr (hexp e hef)]

/-- A required-elements check passes when every required element occurs. -/
theorem reqCheck_true {l scopes : List String} (h : ∀ r ∈ l, r ∈ scopes) :
    (l.all fun r => scopes.any fun s => s == r) = true := by
  simp only [List.all_eq_true, List.any_eq_true, beq_iff_eq]
  intro r hr
  exact ⟨r, h r hr, rfl⟩

/-- A required-elements check fails when some required element is absent. -/
theorem reqCheck_false {l scopes : List String} (r : String) (hr : r ∈ l) (hn : r ∉ scopes) :
    (l.all fun r => scopes.any fun s => s == r) = false := by
  rw [Bool.eq_false_iff]
  intro hall
  rw [List.all_eq_true] at hall
  have h2 := hall r hr
  rw [List.any_eq_true] at h2
  obtain ⟨s, hs, hbeq⟩ := h2
  rw [beq_iff_eq] at hbeq
  exact hn (hbeq ▸ hs)

/-- C1 (amended): for a token whose signature verifies against the key set
and which is not expired, validateAccessToken performs its checks in
source order, the first failing check determining the error: a missing
scope claim is invalid; a required scope missing from the space-split
scope claim is the missing-scope error; a missing acr claim or one that
is not a defined level is invalid; an ACR ordinally below the required
ACR under ACR_LEVELS_ORDER is the ACR-too-low error; a missing
permissions claim is invalid; a required permission missing from the
permissions claim is the missing-permission error; and when every check
passes it returns the FiefAccessTokenInfo with id the sub claim, scope
the space-split scope claim, acr the acr claim, permissions the
permissions claim, and access_token the input token. -/
theorem C1_validateAccessToken_check_order
    (now : Int) (t : SignedJWT AccessTokenClaims) (raw : String)
    (reqS : Option (List String)) (reqA : Option FiefACR) (reqP : Option (List String))
    (hsig : t.sigOk = true) (hexp : ∀ e, t.exp = some e → now < e) :
    (t.claims.scope = none →
       validateAccessToken now t raw reqS reqA reqP = .error .accessTokenInvalid)
  ∧ (∀ s l, t.claims.scope = some s → reqS = some l →
       (∃ r ∈ l, r ∉ jsSplit ' ' s) →
       validateAccessToken now t raw reqS reqA reqP = .error .accessTokenMissingScope)
  ∧ (∀ s, t.claims.scope = some s →
       (∀ l, reqS = some l → ∀ r ∈ l, r ∈ jsSplit ' ' s) →
       (t.claims.acr = none ∨ ∃ a, t.claims.acr = some a ∧ FiefACR.fromString? a = none) →
       validateAccessToken now t raw reqS reqA reqP = .error .accessTokenInvalid)
  ∧ (∀ s a av ra, t.claims.scope = some s →
       (∀ l, reqS = some l → ∀ r ∈ l, r ∈ jsSplit ' ' s) →
       t.claims.acr = some a → FiefACR.fromString? a = some av →
       reqA = some ra → compareACR av ra < 0 →
       validateAccessToken now t raw reqS reqA reqP = .error .accessTokenACRTooLow)
  ∧ (∀ s a av, t.claims.scope = some s →
       (∀ l, reqS = some l → ∀ r ∈ l, r ∈ jsSplit ' ' s) →
       t.claims.acr = some a → FiefACR.fromString? a = some av →
       (∀ ra, reqA = some ra → 0 ≤ compareACR av ra) →
       t.claims.permissions = none →
       validateAccessToken now t raw reqS reqA reqP = .error .accessTokenInvalid)
  ∧ (∀ s a av perms lp, t.claims.scope = some s →
       (∀ l, reqS = some l → ∀ r ∈ l, r ∈ jsSplit ' ' s) →
       t.claims.acr = some a → FiefACR.fromString? a = some av →
       (∀ ra, reqA = some ra → 0 ≤ compareACR av ra) →
       t.claims.permissions = some perms → reqP = some lp →
       (∃ r ∈ lp, r ∉ perms) →
       validateAccessToken now t raw reqS reqA reqP = .error .accessTokenMissingPermission)
  ∧ (∀ s a av perms, t.claims.scope = some s →
       (∀ l, reqS = some l → ∀ r ∈ l, r ∈ jsSplit ' ' s) →
       t.claims.acr = some a → FiefACR.fromString? a = some av →
       (∀ ra, reqA = some ra → 0 ≤ compareACR av ra) →
       t.claims.permissions = some perms →
       (∀ lp, reqP = some lp → ∀ r ∈ lp, r ∈ perms) →
       validateAccessToken now t raw reqS reqA reqP =
         .ok { id := t.claims.sub, scope := jsSplit ' ' s, acr := av,
               permissions := perms, access_token := raw }) := by
  have hv := jwtVerify_ok now t hsig hexp
  refine ⟨?_, ?_, ?_, ?_, ?_, ?_, ?_⟩
  · intro h0
    simp only [validateAccessToken, hv, h0]
  · intro s l hs hl hex
    obtain ⟨r, hr, hnr⟩ := hex
    simp only [validateAccessToken, hv, hs, hl]
    simp [reqCheck_false r hr hnr]
  · intro s hs hsub hacr
    simp only [validateAccessToken, hv, hs]
    cases reqS with
    | none =>
      rcases hacr with h0 | ⟨a, ha, hfs⟩
      · simp [h0]
      · simp [ha, hfs]
    | some l =>
      rcases hacr with h0 | ⟨a, ha, hfs⟩
      · simp [reqCheck_true (hsub l rfl), h0]
      · simp [reqCheck_true (hsub l rfl), ha, hfs]
  · intro s a av ra hs hsub ha hfs hra hlt
    simp only [validateAccessToken, hv, hs, ha, hfs, hra]
    cases reqS with
    | none => simp [hlt]
    | some l => simp [reqCheck_true (hsub l rfl), hlt]
  · intro s a av hs hsub ha hfs hge hp
    simp only [validateAccessToken, hv, hs, ha, hfs, hp]
    cases reqS with
    | none =>
      cases reqA with
      | none => simp
      | some ra => simp [not_lt.mpr (hge ra rfl)]
    | some l =>
      cases reqA with
      | none => simp [reqCheck_true (hsub l rfl)]
      | some ra => simp [reqCheck_true (hsub l rfl), not_lt.mpr (hge ra rfl)]
  · intro s a av perms lp hs hsub ha hfs hge hp hlp hex
    obtain ⟨r, hr, hnr⟩ := hex
    simp only [validateAccessToken, hv, hs, ha, hfs, hp, hlp]
    cases reqS with
    | none =>
      cases reqA with
      | none => simp [reqCheck_false r hr hnr]
      | some ra => simp [not_lt.mpr (hge ra rfl), reqCheck_false r hr hnr]
    | some l =>
      cases reqA with
      | none => simp [reqCheck_true (hsub l rfl), reqCheck_false r hr hnr]
      | some ra =>
        simp [reqCheck_true (hsub l rfl), not_lt.mpr (hge ra rfl), reqCheck_false r hr hnr]
  · intro s a av perms hs hsub ha hfs hge hp hsubp
    simp only [validateAccessToken, hv, hs, ha, hfs, hp]
    cases reqS with
    | none =>
      cases reqA with
      | none =>
        cases reqP with
        | none => simp
        | some lp => simp [reqCheck_true (hsubp lp rfl)]
      | some ra =>
        cases reqP with
        | none => simp [not_lt.mpr (hge ra rfl)]
        | some lp => simp [not_lt.mpr (hge ra rfl), reqCheck_true (hsubp lp rfl)]
    | some l =>
      cases reqA with
      | none =>
        cases reqP with
        | none => simp [reqCheck_true (hsub l rfl)]
        | some lp => simp [reqCheck_true (hsub l rfl), reqCheck_true (hsubp lp rfl)]
      | some ra =>
        cases reqP with
        | none => simp [reqCheck_true (hsub l rfl), not_lt.mpr (hge ra rfl)]
        | some lp =>
          simp [reqCheck_true (hsub l rfl), not_lt.mpr (hge ra rfl),
            reqCheck_true (hsubp lp rfl)]


/-- C1 witness: a concrete signed, unexpired token with every requirement
satisfied validates to the expected FiefAccessTokenInfo. -/
theorem C1_validateAccessToken_check_order_witness :
    validateAccessToken 0
      ⟨true, some 100, ⟨"user-1", some "openid offline_access", some "1", some ["castles:read"]⟩⟩
      "TOKEN" (some ["openid"]) (some .LEVEL_ZERO) (some ["castles:read"]) =
      .ok ⟨"user-1", ["openid", "offline_access"], .LEVEL_ONE, ["castles:read"], "TOKEN"⟩ := by
  have h := (C1_validateAccessToken_check_order 0
      ⟨true, some 100, ⟨"user-1", some "openid offline_access", some "1", some ["castles:read"]⟩⟩
      "TOKEN" (some ["openid"]) (some .LEVEL_ZERO) (some ["castles:read"])
      rfl (by intro e he; cases he; decide)).2.2.2.2.2.2
  exact h "openid offline_access" "1" FiefACR.LEVEL_ONE ["castles:read"]
    rfl
    (by intro l hl; cases hl; decide)
    rfl rfl
    (by intro ra hra; cases hra; decide)
    rfl
    (by intro lp hlp; cases hlp; decide)

/-- C1 counterexample to the claim as stated: a token whose acr claim is
absent but whose scope claim is present while a required scope is
missing raises the missing-scope error, not the generic invalid error
the claim demands for any absent claim. -/
theorem C1_missing_acr_counterexample :
    (⟨"u", some "openid", none, none⟩ : AccessTokenClaims).acr = none
  ∧ validateAccessToken 0 ⟨true, none, ⟨"u", some "openid", none, none⟩⟩ "T"
      (some ["required_scope"]) none none = .error .accessTokenMissingScope
  ∧ Except.error FiefError.accessTokenMissingScope
      ≠ (Except.error FiefError.accessTokenInvalid : Except FiefError FiefAccessTokenInfo) := by
  exact ⟨rfl, rfl, by decide⟩

/-- C4: a correctly signed token whose exp claim is in the past at
validation time always fails as FiefAccessTokenExpired (never as the
generic FiefAccessTokenInvalid), whatever the required scopes, ACR and
permissions are. -/
theorem C4_expired_token_raises_expired (now : Int) (t : SignedJWT AccessTokenClaims)
    (raw : String) (reqS : Option (List String)) (reqA : Option FiefACR)
    (reqP : Option (List String)) (e : Int)
    (hsig : t.sigOk = true) (hexp : t.exp = some e) (hpast : e < now) :
    validateAccessToken now t raw reqS reqA reqP = .error .accessTokenExpired := by
  unfold validateAccessToken jwtVerify
  rw [hsig, hexp]
  simp [le_of_lt hpast]

/-- C4 witness: a concrete well-formed, correctly signed token with an
elapsed exp claim fails as expired. -/
theorem C4_expired_token_raises_expired_witness :
    validateAccessToken 100
      ⟨true, some 50, ⟨"user-1", some "openid", some "1", some []⟩⟩ "TOKEN" none none none =
      .error .accessTokenExpired :=
  C4_expired_token_raises_expired 100
    ⟨true, some 50, ⟨"user-1", some "openid", some "1", some []⟩⟩
    "TOKEN" none none none 50 rfl rfl (by decide)

/-- The hash-binding check of decodeIDToken passes when the claim is
absent or matches the validation hash of a nonempty supplied value. -/
theorem hashClaimCheck_true (ch oc : Option String)
    (hgood : ∀ h, ch = some h → ∃ C, oc = some C ∧ C ≠ "" ∧ h = getValidationHash C) :
    hashClaimCheck ch oc = true := by
  cases hch : ch with
  | none => rfl
  | some h =>
    obtain ⟨C, hoc, hC, hh⟩ := hgood h hch
    subst hoc
    have hfalsy : jsFalsy (some C) = false := by simp [jsFalsy, hC]
    simp [hashClaimCheck, hfalsy, isValidHash, hh]

/-- The hash-binding check of decodeIDToken fails when the claim is
present but the value is unsupplied, empty, or hashes differently. -/
theorem hashClaimCheck_false (ch oc : Option String) (h : String) (hch : ch = some h)
    (hbad : oc = none ∨ oc = some "" ∨ ∃ C, oc = some C ∧ h ≠ getValidationHash C) :
    hashClaimCheck ch oc = false := by
  subst hch
  rcases hbad with h0 | h0 | ⟨C, hoc, hne⟩
  · subst h0; rfl
  · subst h0; rfl
  · subst hoc
    by_cases hC : C = ""
    · subst hC; rfl
    · have hfalsy : jsFalsy (some C) = false := by simp [jsFalsy, hC]
      have hbeq : isValidHash C h = false := by
        rw [isValidHash, beq_eq_false_iff_ne]
        exact fun hh => hne hh.symm
      simp [hashClaimCheck, hfalsy, hbeq]

/-- C2 (amended): with decryption and signature verification succeeding
and the token unexpired, decodeIDToken accepts the token when every
present hash claim is the validation hash of the corresponding nonempty
supplied value (absent claims are not checked), and raises
FiefIdTokenInvalid whenever a present c_hash or at_hash claim does not
match the corresponding value, or that value was not supplied, or it was
supplied as the empty string (which the code treats as absent). -/
theorem C2_decodeIDToken_hash_binding (now : Int) (hasKey : Bool) (tok : EncodedIDToken)
    (code accessToken : Option String)
    (hdec : hasKey = true → tok.decryptOk = true)
    (hsig : tok.jwt.sigOk = true) (hexp : ∀ e, tok.jwt.exp = some e → now < e) :
    ((∀ h, tok.jwt.claims.cHash = some h →
        ∃ C, code = some C ∧ C ≠ "" ∧ h = getValidationHash C) →
     (∀ h, tok.jwt.claims.atHash = some h →
        ∃ T, accessToken = some T ∧ T ≠ "" ∧ h = getValidationHash T) →
     decodeIDToken now hasKey tok code accessToken = .ok tok.jwt.claims)
  ∧ (∀ h, tok.jwt.claims.cHash = some h →
      (code = none ∨ code = some "" ∨ ∃ C, code = some C ∧ h ≠ getValidationHash C) →
      decodeIDToken now hasKey tok code accessToken = .error .idTokenInvalid)
  ∧ (∀ h, tok.jwt.claims.atHash = some h →
      (∀ hc, tok.jwt.claims.cHash = some hc →
        ∃ C, code = some C ∧ C ≠ "" ∧ hc = getValidationHash C) →
      (accessToken = none ∨ accessToken = some ""
        ∨ ∃ T, accessToken = some T ∧ h ≠ getValidationHash T) →
      decodeIDToken now hasKey tok code accessToken = .error .idTokenInvalid) := by
  have hcond : ¬(hasKey = true ∧ tok.decryptOk = false) := by
    rintro ⟨h1, h2⟩
    rw [hdec h1] at h2
    cases h2
  have hv := jwtVerify_ok now tok.jwt hsig hexp
  refine ⟨?_, ?_, ?_⟩
  · intro hc hat
    simp only [decodeIDToken, if_neg hcond, hv]
    rw [hashClaimCheck_true _ _ hc, hashClaimCheck_true _ _ hat]
    simp
  · intro h hch hbad
    simp only [decodeIDToken, if_neg hcond, hv]
    rw [hashClaimCheck_false _ _ h hch hbad]
    simp
  · intro h hah hcgood hbad
    simp only [decodeIDToken, if_neg hcond, hv]
    rw [hashClaimCheck_true _ _ hcgood, hashClaimCheck_false _ _ h hah hbad]
    simp

/-- C2 witness: a concrete exchange with code CODE and access token
ACCESS_TOKEN, whose ID token carries exactly their validation hashes,
decodes successfully. -/
theorem C2_decodeIDToken_hash_binding_witness :
    decodeIDToken 0 false
      ⟨true, ⟨true, some 100,
        ⟨"user-1", some (getValidationHash "CODE"), some (getValidationHash "ACCESS_TOKEN")⟩⟩⟩
      (some "CODE") (some "ACCESS_TOKEN") =
      .ok ⟨"user-1", some (getValidationHash "CODE"), some (getValidationHash "ACCESS_TOKEN")⟩ :=
  (C2_decodeIDToken_hash_binding 0 false
      ⟨true, ⟨true, some 100,
        ⟨"user-1", some (getValidationHash "CODE"), some (getValidationHash "ACCESS_TOKEN")⟩⟩⟩
      (some "CODE") (some "ACCESS_TOKEN")
      (fun _ => rfl) rfl (by intro e he; cases he; decide)).1
    (by intro h hh; cases hh; exact ⟨"CODE", rfl, by decide, rfl⟩)
    (by intro h hh; cases hh; exact ⟨"ACCESS_TOKEN", rfl, by decide, rfl⟩)

/-- C2 counterexample to the claim as stated: an exchange whose
authorization code is the empty string, with an otherwise valid ID token
whose c_hash claim equals the validation hash of that code, is rejected
as FiefIdTokenInvalid because the code treats an empty-string code as
absent, while the claim requires acceptance. -/
theorem C2_empty_code_counterexample :
    (⟨"u", some (getValidationHash ""), none⟩ : IDTokenClaims).cHash
        = some (getValidationHash "")
  ∧ decodeIDToken 0 false ⟨true, ⟨true, none, ⟨"u", some (getValidationHash ""), none⟩⟩⟩
      (some "") none = .error .idTokenInvalid :=
  ⟨rfl, rfl⟩

/-- C6: every failure of decodeIDToken, whatever its cause (decryption
failure, signature failure, expiry, any other JOSE error, or a hash
binding mismatch), surfaces as the single error FiefIdTokenInvalid. -/
theorem C6_decodeIDToken_single_error (now : Int) (hasKey : Bool) (tok : EncodedIDToken)
    (code accessToken : Option String) (e : FiefError)
    (h : decodeIDToken now hasKey tok code accessToken = .error e) :
    e = .idTokenInvalid := by
  unfold decodeIDToken at h
  split at h
  · cases h; rfl
  · split at h
    · cases h; rfl
    · cases h; rfl
    · split at h
      · cases h; rfl
      · split at h
        · cases h; rfl
        · cases h

/-- C6 witness: a token failing signature verification is rejected, and
the theorem identifies its error as FiefIdTokenInvalid. -/
theorem C6_decodeIDToken_single_error_witness :
    decodeIDToken 0 false ⟨true, ⟨false, none, ⟨"u", none, none⟩⟩⟩ none none
      = .error .idTokenInvalid
  ∧ FiefError.idTokenInvalid = FiefError.idTokenInvalid :=
  ⟨rfl, C6_decodeIDToken_single_error 0 false ⟨true, ⟨false, none, ⟨"u", none, none⟩⟩⟩
    none none .idTokenInvalid rfl⟩

theorem sha256Compress_length (hs block : List Nat) : (sha256Compress hs block).length = 8 := rfl

theorem foldl_length_inv {α : Type} (f : List Nat → α → List Nat) (k : Nat)
    (hf : ∀ b a, b.length = k → (f b a).length = k) :
    ∀ (l : List α) (b : List Nat), b.length = k → (l.foldl f b).length = k := by
  intro l
  induction l with
  | nil => intro b hb; exact hb
  | cons a l ih => intro b hb; exact ih (f b a) (hf b a hb)

theorem length_flatMap_const {α β : Type} (f : α → List β) (k : Nat)
    (hf : ∀ a, (f a).length = k) (l : List α) :
    (l.flatMap f).length = k * l.length := by
  induction l with
  | nil => simp
  | cons a l ih =>
    rw [List.flatMap_cons, List.length_append, hf, ih, List.length_cons, Nat.mul_succ,
      Nat.add_comm]

/-- The digest produced by the SHA-256 embedding always has 32 bytes. -/
theorem sha256_length (msg : List Nat) : (sha256 msg).length = 32 := by
  unfold sha256
  rw [length_flatMap_const
    (fun wv => [(wv >>> 24) &&& 0xFF, (wv >>> 16) &&& 0xFF, (wv >>> 8) &&& 0xFF, wv &&& 0xFF])
    4 (fun wv => rfl)]
  have h8 := foldl_length_inv
    (fun hs i => sha256Compress hs (((sha256Pad msg).drop (64 * i)).take 64)) 8
    (fun b a _ => sha256Compress_length b _)
    (List.range ((sha256Pad msg).length / 64)) sha256H0 rfl
  rw [h8]

theorem base64urlEncode_length_mod2 :
    ∀ (n : Nat) (l : List Nat), l.length = 3 * n + 2 →
      (base64urlEncode l).length = 4 * n + 3 := by
  intro n
  induction n with
  | zero =>
    intro l hl
    match l, hl with
    | [a, b], _ => rfl
  | succ n ih =>
    intro l hl
    match l, hl with
    | a :: b :: c :: rest, hl =>
      have hr : rest.length = 3 * n + 2 := by
        simp only [List.length_cons] at hl
        omega
      show (base64urlEncode (a :: b :: c :: rest)).length = 4 * (n + 1) + 3
      have : base64urlEncode (a :: b :: c :: rest) =
          b64Char ((a * 65536 + b * 256 + c) >>> 18)
            :: b64Char (((a * 65536 + b * 256 + c) >>> 12) &&& 63)
            :: b64Char (((a * 65536 + b * 256 + c) >>> 6) &&& 63)
            :: b64Char ((a * 65536 + b * 256 + c) &&& 63) :: base64urlEncode rest := rfl
      rw [this]
      simp only [List.length_cons, ih rest hr]
      omega

theorem base64urlEncode_length_mod1 :
    ∀ (n : Nat) (l : List Nat), l.length = 3 * n + 1 →
      (base64urlEncode l).length = 4 * n + 2 := by
  intro n
  induction n with
  | zero =>
    intro l hl
    match l, hl with
    | [a], _ => rfl
  | succ n ih =>
    intro l hl
    match l, hl with
    | a :: b :: c :: rest, hl =>
      have hr : rest.length = 3 * n + 1 := by
        simp only [List.length_cons] at hl
        omega
      have : base64urlEncode (a :: b :: c :: rest) =
          b64Char ((a * 65536 + b * 256 + c) >>> 18)
            :: b64Char (((a * 65536 + b * 256 + c) >>> 12) &&& 63)
            :: b64Char (((a * 65536 + b * 256 + c) >>> 6) &&& 63)
            :: b64Char ((a * 65536 + b * 256 + c) &&& 63) :: base64urlEncode rest := rfl
      rw [this]
      simp only [List.length_cons, ih rest hr]
      omega

/-- C5 (amended): getCodeChallenge with method plain returns the verifier
unchanged, and with method S256 returns the URL-safe unpadded base64 of
the FULL SHA-256 digest of the verifier (43 characters), which is a
different function from the short-hash getValidationHash used for
c_hash/at_hash checks (22 characters over the first half of the digest):
the two disagree at every input. -/
theorem C5_getCodeChallenge_not_validation_hash (v : String) :
    getCodeChallenge v .plain = v
  ∧ getCodeChallenge v .S256 = String.mk (base64urlEncode (sha256 (utf8Bytes v)))
  ∧ (getCodeChallenge v .S256).length = 43
  ∧ (getValidationHash v).length = 22
  ∧ getCodeChallenge v .S256 ≠ getValidationHash v := by
  have hfull : (getCodeChallenge v .S256).length = 43 := by
    show (String.mk (base64urlEncode (sha256 (utf8Bytes v)))).length = 43
    have h32 : (sha256 (utf8Bytes v)).length = 3 * 10 + 2 := sha256_length (utf8Bytes v)
    have := base64urlEncode_length_mod2 10 _ h32
    simpa [String.length] using this
  have hhalf : (getValidationHash v).length = 22 := by
    show (String.mk (base64urlEncode
      ((sha256 (utf8Bytes v)).take ((sha256 (utf8Bytes v)).length / 2)))).length = 22
    have h32 := sha256_length (utf8Bytes v)
    have htake : ((sha256 (utf8Bytes v)).take ((sha256 (utf8Bytes v)).length / 2)).length
        = 3 * 5 + 1 := by
      rw [List.length_take, h32]
      decide
    have := base64urlEncode_length_mod1 5 _ htake
    simpa [String.length] using this
  refine ⟨rfl, rfl, hfull, hhalf, ?_⟩
  intro heq
  rw [heq, hhalf] at hfull
  cases hfull

set_option maxRecDepth 40000 in
/-- C5 counterexample to the claim as stated: at the input CODE the S256
code challenge is not the validation hash. -/
theorem C5_S256_counterexample :
    getCodeChallenge "CODE" .S256 ≠ getValidationHash "CODE" := by
  decide

/-- C7: invoking authCallback while the authorization code of the current
location is already in the pendingAuthCallbacks set is a no-op: it
returns without calling the token-endpoint exchange and without touching
the session storage or any other state. -/
theorem C7_authCallback_pending_noop (st : BrowserState) (params : CallbackParams)
    (exchange : String → Option String → ExchangeOutcome) (code : String)
    (herr : params.error = none) (hcode : params.code = some code)
    (hpend : st.pending.contains code = true) :
    authCallback st params exchange = (.returned, st, false) := by
  unfold authCallback
  rw [herr, hcode]
  simp [hpend]
  intro h
  exact absurd (by simpa using hpend) h

/-- C7 witness: re-entering the callback for the in-flight code CODE
leaves the state untouched and sends no request. -/
theorem C7_authCallback_pending_noop_witness :
    authCallback ⟨["CODE"], ⟨none, none, none⟩⟩ ⟨none, none, some "CODE"⟩
      (fun _ _ => .rejected) = (.returned, ⟨["CODE"], ⟨none, none, none⟩⟩, false) :=
  C7_authCallback_pending_noop ⟨["CODE"], ⟨none, none, none⟩⟩ ⟨none, none, some "CODE"⟩
    (fun _ _ => .rejected) "CODE" rfl rfl (by decide)

/-- C8: evaluation of the code at the failing input.  When the code
exchange settles by rejection, the pendingAuthCallbacks entry added at
callback entry is NOT removed (there is no finally clause), so the code
stays in the set and a later legitimate retry with the same code is a
no-op that sends no token-endpoint request, contradicting the claim that
every entry is removed when its exchange settles. -/
theorem C8_rejected_exchange_keeps_pending_entry :
    (authCallback ⟨[], ⟨none, none, some "VERIFIER"⟩⟩ ⟨none, none, some "CODE"⟩
        (fun _ _ => .rejected)).1 = .exchangeFailed
  ∧ ((authCallback ⟨[], ⟨none, none, some "VERIFIER"⟩⟩ ⟨none, none, some "CODE"⟩
        (fun _ _ => .rejected)).2.1).pending = ["CODE"]
  ∧ authCallback ((authCallback ⟨[], ⟨none, none, some "VERIFIER"⟩⟩ ⟨none, none, some "CODE"⟩
        (fun _ _ => .rejected)).2.1) ⟨none, none, some "CODE"⟩
        (fun _ _ => .resolved "TOKENS" "USER") =
      (.returned, (authCallback ⟨[], ⟨none, none, some "VERIFIER"⟩⟩ ⟨none, none, some "CODE"⟩
        (fun _ _ => .rejected)).2.1, false)
  ∧ (authCallback ⟨[], ⟨none, none, some "VERIFIER"⟩⟩ ⟨none, none, some "CODE"⟩
        (fun _ _ => .resolved "TOKENS" "USER")).2.1
      = ⟨[], ⟨some "USER", some "TOKENS", none⟩⟩ := by
  refine ⟨rfl, by decide, by decide, by decide⟩

/-- C3 (amended): the authenticate handler raises unauthorized when no
token is extracted and optional is not set and yields the null result
when no token is extracted and optional is set; when a token is present
it forwards exactly the scope and permissions parameters to validation
(the parameter interface has no acr field and no required ACR is
forwarded); it raises unauthorized when validation fails as invalid or
expired, even when optional is set; it raises forbidden for a missing
required scope or permission; any other validation error, including the
ACR-too-low error, propagates unchanged; on success the user comes from
the cache unless refresh is set or the cache misses, in which case it is
fetched from the provider userinfo endpoint and written back. -/
theorem C3_authenticate_contract (params : AuthenticateRequestParameters) (ctx : AuthContext) :
    (ctx.token = none → params.optional = false →
      authenticate params ctx = .error .unauthorized)
  ∧ (ctx.token = none → params.optional = true →
      authenticate params ctx = .ok ({ accessTokenInfo := none, user := none }, AuthEffects.none))
  ∧ (∀ tkn, ctx.token = some tkn →
      (ctx.validate tkn params.scope params.permissions = .err .accessTokenInvalid ∨
       ctx.validate tkn params.scope params.permissions = .err .accessTokenExpired) →
      authenticate params ctx = .error .unauthorized)
  ∧ (∀ tkn, ctx.token = some tkn →
      (ctx.validate tkn params.scope params.permissions = .err .accessTokenMissingScope ∨
       ctx.validate tkn params.scope params.permissions = .err .accessTokenMissingPermission) →
      authenticate params ctx = .error .forbidden)
  ∧ (∀ tkn, ctx.token = some tkn →
      ctx.validate tkn params.scope params.permissions = .err .accessTokenACRTooLow →
      authenticate params ctx = .error (.unhandled .accessTokenACRTooLow))
  ∧ (∀ tkn info entries cached, ctx.token = some tkn →
      ctx.validate tkn params.scope params.permissions = .ok info →
      ctx.cache = some entries → cacheGet entries info.id = some cached →
      params.refresh = false →
      authenticate params ctx =
        .ok ({ accessTokenInfo := some info, user := some cached }, AuthEffects.none))
  ∧ (∀ tkn info entries, ctx.token = some tkn →
      ctx.validate tkn params.scope params.permissions = .ok info →
      ctx.cache = some entries →
      (cacheGet entries info.id = none ∨ params.refresh = true) →
      authenticate params ctx =
        .ok ({ accessTokenInfo := some info,
               user := some (ctx.providerUserinfo info.access_token) },
             { userinfoCalled := true,
               cacheWrites := [(info.id, ctx.providerUserinfo info.access_token)] })) := by
  refine ⟨?_, ?_, ?_, ?_, ?_, ?_, ?_⟩
  · intro h1 h2
    simp only [authenticate, h1, h2]
    rfl
  · intro h1 h2
    simp only [authenticate, h1, h2]
    rfl
  · intro tkn h1 hv
    rcases hv with hv | hv <;> simp only [authenticate, h1, hv]
  · intro tkn h1 hv
    rcases hv with hv | hv <;> simp only [authenticate, h1, hv]
  · intro tkn h1 hv
    simp only [authenticate, h1, hv]
  · intro tkn info entries cached h1 hv hc hcg hr
    simp only [authenticate, h1, hv, hc, hcg, hr]
    rfl
  · intro tkn info entries h1 hv hc hmiss
    rcases hmiss with hcg | hr
    · simp only [authenticate, h1, hv, hc, hcg]
    · simp only [authenticate, h1, hv, hc, hr]
      cases hcg : cacheGet entries info.id <;> simp [hcg]

/-- C3 witness: with a configured cache, a fresh entry is fetched from
the provider and written back on a cache miss. -/
theorem C3_authenticate_contract_witness :
    authenticate ⟨false, some ["openid"], some [], false⟩
      ⟨some "TOKEN",
       fun _ _ _ => .ok ⟨"user-1", ["openid"], .LEVEL_ZERO, [], "TOKEN"⟩,
       some [], fun _ => "USERINFO"⟩ =
      .ok ({ accessTokenInfo := some ⟨"user-1", ["openid"], .LEVEL_ZERO, [], "TOKEN"⟩,
             user := some "USERINFO" },
           { userinfoCalled := true, cacheWrites := [("user-1", "USERINFO")] }) :=
  (C3_authenticate_contract ⟨false, some ["openid"], some [], false⟩
      ⟨some "TOKEN",
       fun _ _ _ => .ok ⟨"user-1", ["openid"], .LEVEL_ZERO, [], "TOKEN"⟩,
       some [], fun _ => "USERINFO"⟩).2.2.2.2.2.2
    "TOKEN" ⟨"user-1", ["openid"], .LEVEL_ZERO, [], "TOKEN"⟩ [] rfl rfl rfl (Or.inl rfl)

/-- C3 counterexample to the claim as stated: with optional set, a
present token whose validation fails as expired makes the handler raise
the unauthorized error instead of returning the null result the claim
promises for optional handlers. -/
theorem C3_optional_expired_counterexample :
    authenticate ⟨true, none, none, false⟩
      ⟨some "TOKEN", fun _ _ _ => .err .accessTokenExpired, none, fun _ => "u"⟩ =
      .error .unauthorized := rfl

/-- C10: when the server FiefAuth was constructed without a userInfoCache,
a successfully validated request yields a null user and the provider
userinfo endpoint is never called, whatever the refresh parameter is. -/
theorem C10_no_cache_null_user (params : AuthenticateRequestParameters) (ctx : AuthContext)
    (tkn : String) (info : FiefAccessTokenInfo)
    (h1 : ctx.token = some tkn)
    (hv : ctx.validate tkn params.scope params.permissions = .ok info)
    (hc : ctx.cache = none) :
    authenticate params ctx =
      .ok ({ accessTokenInfo := some info, user := none }, AuthEffects.none) := by
  simp only [authenticate, h1, hv, hc]

/-- C10 witness: even with refresh set, a cacheless instance returns a
null user and records no userinfo call. -/
theorem C10_no_cache_null_user_witness :
    authenticate ⟨false, none, none, true⟩
      ⟨some "TOKEN",
       fun _ _ _ => .ok ⟨"user-1", ["openid"], .LEVEL_ZERO, [], "TOKEN"⟩,
       none, fun _ => "USERINFO"⟩ =
      .ok ({ accessTokenInfo := some ⟨"user-1", ["openid"], .LEVEL_ZERO, [], "TOKEN"⟩,
             user := none }, AuthEffects.none) :=
  C10_no_cache_null_user ⟨false, none, none, true⟩
    ⟨some "TOKEN",
     fun _ _ _ => .ok ⟨"user-1", ["openid"], .LEVEL_ZERO, [], "TOKEN"⟩,
     none, fun _ => "USERINFO"⟩
    "TOKEN" ⟨"user-1", ["openid"], .LEVEL_ZERO, [], "TOKEN"⟩ rfl rfl rfl

theorem FetchEffects.add_configSuccesses (a b : FetchEffects) :
    (FetchEffects.add a b).configSuccesses = a.configSuccesses + b.configSuccesses := rfl

theorem FetchEffects.add_jwksSuccesses (a b : FetchEffects) :
    (FetchEffects.add a b).jwksSuccesses = a.jwksSuccesses + b.jwksSuccesses := rfl

theorem FetchEffects.none_configSuccesses : FetchEffects.none.configSuccesses = 0 := rfl

theorem FetchEffects.none_jwksSuccesses : FetchEffects.none.jwksSuccesses = 0 := rfl

/-- A cached configuration is returned as is, with no fetch. -/
theorem getOpenIDConfiguration_cached (st : ClientCacheState) (resp : FetchResponse)
    (conf : String) (h : st.openIDConfiguration = some conf) :
    getOpenIDConfiguration st resp = (.ok conf, st, FetchEffects.none) := by
  simp [getOpenIDConfiguration, h]

/-- A cached key set is returned as is, with no fetch. -/
theorem getJWKS_cached (st : ClientCacheState) (confResp jwksResp : FetchResponse)
    (keys : String) (h : st.jwks = some keys) :
    getJWKS st confResp jwksResp = (.ok keys, st, FetchEffects.none) := by
  simp [getJWKS, h]

/-- A configuration fetch on an empty cache caches the body exactly when
the response is 2xx. -/
theorem getOpenIDConfiguration_fetch_ok (st : ClientCacheState) (resp : FetchResponse)
    (h : st.openIDConfiguration = none) (h2 : handleRequestOk resp.status = true) :
    getOpenIDConfiguration st resp =
      (.ok resp.body, { st with openIDConfiguration := some resp.body },
       { configFetches := 1, configSuccesses := 1, jwksFetches := 0, jwksSuccesses := 0 }) := by
  simp [getOpenIDConfiguration, h, h2, FetchEffects.none]

/-- A failed configuration fetch surfaces the status and leaves the cache
empty. -/
theorem getOpenIDConfiguration_fetch_fail (st : ClientCacheState) (resp : FetchResponse)
    (h : st.openIDConfiguration = none) (h2 : handleRequestOk resp.status = false) :
    getOpenIDConfiguration st resp =
      (.error resp.status, st,
       { configFetches := 1, configSuccesses := 0, jwksFetches := 0, jwksSuccesses := 0 }) := by
  simp [getOpenIDConfiguration, h, h2, FetchEffects.none]

/-- Once the configuration is cached, no later sequential call performs a
successful configuration fetch. -/
theorem run_configSuccesses_zero :
    ∀ (calls : List ClientCall) (st : ClientCacheState) (c : String),
      st.openIDConfiguration = some c →
      ((runClientCalls st calls).2).configSuccesses = 0 := by
  intro calls
  induction calls with
  | nil => intro st c h; rfl
  | cons call rest ih =>
    intro st c h
    cases call with
    | configCall resp =>
      simp only [runClientCalls, getOpenIDConfiguration_cached st resp c h,
        FetchEffects.add_configSuccesses, FetchEffects.none_configSuccesses,
        ih st c h]
    | jwksCall confResp jwksResp =>
      cases hj : st.jwks with
      | some k =>
        simp only [runClientCalls, getJWKS_cached st confResp jwksResp k hj,
          FetchEffects.add_configSuccesses, FetchEffects.none_configSuccesses,
          ih st c h]
      | none =>
        simp only [runClientCalls, getJWKS, hj,
          getOpenIDConfiguration_cached st confResp c h]
        cases h2 : handleRequestOk jwksResp.status with
        | true =>
          simp only [if_true, FetchEffects.add_configSuccesses,
            FetchEffects.none_configSuccesses,
            ih { st with jwks := some jwksResp.body } c h]
        | false =>
          simp only [Bool.false_eq_true, if_false, FetchEffects.add_configSuccesses,
            FetchEffects.none_configSuccesses, ih st c h]

/-- Once the key set is cached, no later sequential call performs a
successful JWKS fetch. -/
theorem run_jwksSuccesses_zero :
    ∀ (calls : List ClientCall) (st : ClientCacheState) (k : String),
      st.jwks = some k →
      ((runClientCalls st calls).2).jwksSuccesses = 0 := by
  intro calls
  induction calls with
  | nil => intro st k h; rfl
  | cons call rest ih =>
    intro st k h
    cases call with
    | configCall resp =>
      cases hc : st.openIDConfiguration with
      | some c =>
        simp only [runClientCalls, getOpenIDConfiguration_cached st resp c hc,
          FetchEffects.add_jwksSuccesses, FetchEffects.none_jwksSuccesses, ih st k h]
      | none =>
        cases h2 : handleRequestOk resp.status with
        | true =>
          simp only [runClientCalls, getOpenIDConfiguration_fetch_ok st resp hc h2,
            FetchEffects.add_jwksSuccesses,
            ih { st with openIDConfiguration := some resp.body } k h]
        | false =>
          simp only [runClientCalls, getOpenIDConfiguration_fetch_fail st resp hc h2,
            FetchEffects.add_jwksSuccesses, ih st k h]
    | jwksCall confResp jwksResp =>
      simp only [runClientCalls, getJWKS_cached st confResp jwksResp k h,
        FetchEffects.add_jwksSuccesses, FetchEffects.none_jwksSuccesses, ih st k h]

/-- Over any sequence of sequential calls, at most one configuration
fetch succeeds. -/
theorem run_configSuccesses_le_one :
    ∀ (calls : List ClientCall) (st : ClientCacheState),
      ((runClientCalls st calls).2).configSuccesses ≤ 1 := by
  intro calls
  induction calls with
  | nil => intro st; exact Nat.zero_le 1
  | cons call rest ih =>
    intro st
    cases call with
    | configCall resp =>
      cases hc : st.openIDConfiguration with
      | some c =>
        simp only [runClientCalls, getOpenIDConfiguration_cached st resp c hc,
          FetchEffects.add_configSuccesses, FetchEffects.none_configSuccesses,
          Nat.zero_add]
        exact ih st
      | none =>
        cases h2 : handleRequestOk resp.status with
        | true =>
          simp only [runClientCalls, getOpenIDConfiguration_fetch_ok st resp hc h2,
            FetchEffects.add_configSuccesses,
            run_configSuccesses_zero rest { st with openIDConfiguration := some resp.body }
              resp.body rfl]
          exact Nat.le_refl 1
        | false =>
          simp only [runClientCalls, getOpenIDConfiguration_fetch_fail st resp hc h2,
            FetchEffects.add_configSuccesses, Nat.zero_add]
          exact ih st
    | jwksCall confResp jwksResp =>
      cases hj : st.jwks with
      | some k =>
        simp only [runClientCalls, getJWKS_cached st confResp jwksResp k hj,
          FetchEffects.add_configSuccesses, FetchEffects.none_configSuccesses,
          Nat.zero_add]
        exact ih st
      | none =>
        cases hc : st.openIDConfiguration with
        | some c =>
          simp only [runClientCalls, getJWKS, hj,
            getOpenIDConfiguration_cached st confResp c hc]
          cases h2 : handleRequestOk jwksResp.status with
          | true =>
            simp only [if_true, FetchEffects.add_configSuccesses,
              FetchEffects.none_configSuccesses, Nat.zero_add]
            exact ih { st with jwks := some jwksResp.body }
          | false =>
            simp only [Bool.false_eq_true, if_false, FetchEffects.add_configSuccesses,
              FetchEffects.none_configSuccesses, Nat.zero_add]
            exact ih st
        | none =>
          cases h2 : handleRequestOk confResp.status with
          | true =>
            simp only [runClientCalls, getJWKS, hj,
              getOpenIDConfiguration_fetch_ok st confResp hc h2]
            have hz1 := run_configSuccesses_zero rest
              { openIDConfiguration := some confResp.body, jwks := some jwksResp.body }
              confResp.body rfl
            have hz2 := run_configSuccesses_zero rest
              { openIDConfiguration := some confResp.body, jwks := none }
              confResp.body rfl
            cases h3 : handleRequestOk jwksResp.status with
            | true =>
              simp [FetchEffects.add_configSuccesses,
                FetchEffects.none_configSuccesses, hz1, hz2]
            | false =>
              simp [FetchEffects.add_configSuccesses,
                FetchEffects.none_configSuccesses, hz1, hz2]
          | false =>
            simp only [runClientCalls, getJWKS, hj,
              getOpenIDConfiguration_fetch_fail st confResp hc h2,
              FetchEffects.add_configSuccesses, Nat.zero_add]
            exact ih st

/-- Over any sequence of sequential calls, at most one JWKS fetch
succeeds. -/
theorem run_jwksSuccesses_le_one :
    ∀ (calls : List ClientCall) (st : ClientCacheState),
      ((runClientCalls st calls).2).jwksSuccesses ≤ 1 := by
  intro calls
  induction calls with
  | nil => intro st; exact Nat.zero_le 1
  | cons call rest ih =>
    intro st
    cases call with
    | configCall resp =>
      cases hc : st.openIDConfiguration with
      | some c =>
        simp only [runClientCalls, getOpenIDConfiguration_cached st resp c hc,
          FetchEffects.add_jwksSuccesses, FetchEffects.none_jwksSuccesses,
          Nat.zero_add]
        exact ih st
      | none =>
        cases h2 : handleRequestOk resp.status with
        | true =>
          simp only [runClientCalls, getOpenIDConfiguration_fetch_ok st resp hc h2,
            FetchEffects.add_jwksSuccesses, Nat.zero_add]
          exact ih { st with openIDConfiguration := some resp.body }
        | false =>
          simp only [runClientCalls, getOpenIDConfiguration_fetch_fail st resp hc h2,
            FetchEffects.add_jwksSuccesses, Nat.zero_add]
          exact ih st
    | jwksCall confResp jwksResp =>
      cases hj : st.jwks with
      | some k =>
        simp only [runClientCalls, getJWKS_cached st confResp jwksResp k hj,
          FetchEffects.add_jwksSuccesses, FetchEffects.none_jwksSuccesses,
          Nat.zero_add]
        exact ih st
      | none =>
        cases hc : st.openIDConfiguration with
        | some c =>
          simp only [runClientCalls, getJWKS, hj,
            getOpenIDConfiguration_cached st confResp c hc]
          cases h2 : handleRequestOk jwksResp.status with
          | true =>
            simp only [if_true, FetchEffects.add_jwksSuccesses,
              run_jwksSuccesses_zero rest { st with jwks := some jwksResp.body }
                jwksResp.body rfl]
            exact Nat.le_refl 1
          | false =>
            simp only [Bool.false_eq_true, if_false, FetchEffects.add_jwksSuccesses,
              FetchEffects.none_jwksSuccesses, Nat.zero_add]
            exact ih st
        | none =>
          cases h2 : handleRequestOk confResp.status with
          | true =>
            simp only [runClientCalls, getJWKS, hj,
              getOpenIDConfiguration_fetch_ok st confResp hc h2]
            have hz1 := run_jwksSuccesses_zero rest
              { openIDConfiguration := some confResp.body, jwks := some jwksResp.body }
              jwksResp.body rfl
            have hrest := ih { openIDConfiguration := some confResp.body, jwks := none }
            cases h3 : handleRequestOk jwksResp.status with
            | true =>
              simp [FetchEffects.add_jwksSuccesses,
                FetchEffects.none_jwksSuccesses, hz1]
            | false =>
              simp only [Bool.false_eq_true, if_false, FetchEffects.add_jwksSuccesses,
                Nat.zero_add]
              simpa [FetchEffects.none_jwksSuccesses] using hrest
          | false =>
            simp only [runClientCalls, getJWKS, hj,
              getOpenIDConfiguration_fetch_fail st confResp hc h2,
              FetchEffects.add_jwksSuccesses, Nat.zero_add]
            exact ih st

/-- C9 (amended): getOpenIDConfiguration and getJWKS return the cached
value without any fetch whenever their cache field is non-empty; an
empty cache triggers a fetch whose body is cached only on a 2xx
response, a failed fetch leaving the cache empty so a later call
retries; consequently over any sequence of sequential calls on one
client instance at most one discovery fetch and at most one JWKS fetch
succeed, although failed fetch attempts may repeat, one per call, until
a success populates the cache. -/
theorem C9_discovery_cache_single_success :
    (∀ (st : ClientCacheState) (resp : FetchResponse) (conf : String),
       st.openIDConfiguration = some conf →
       getOpenIDConfiguration st resp = (.ok conf, st, FetchEffects.none))
  ∧ (∀ (st : ClientCacheState) (confResp jwksResp : FetchResponse) (keys : String),
       st.jwks = some keys →
       getJWKS st confResp jwksResp = (.ok keys, st, FetchEffects.none))
  ∧ (∀ (st : ClientCacheState) (resp : FetchResponse),
       st.openIDConfiguration = none → handleRequestOk resp.status = true →
       getOpenIDConfiguration st resp =
         (.ok resp.body, { st with openIDConfiguration := some resp.body },
          { configFetches := 1, configSuccesses := 1, jwksFetches := 0, jwksSuccesses := 0 }))
  ∧ (∀ (st : ClientCacheState) (resp : FetchResponse),
       st.openIDConfiguration = none → handleRequestOk resp.status = false →
       getOpenIDConfiguration st resp =
         (.error resp.status, st,
          { configFetches := 1, configSuccesses := 0, jwksFetches := 0, jwksSuccesses := 0 }))
  ∧ (∀ (st : ClientCacheState) (calls : List ClientCall),
       ((runClientCalls st calls).2).configSuccesses ≤ 1
       ∧ ((runClientCalls st calls).2).jwksSuccesses ≤ 1) :=
  ⟨getOpenIDConfiguration_cached, getJWKS_cached,
   getOpenIDConfiguration_fetch_ok, getOpenIDConfiguration_fetch_fail,
   fun st calls => ⟨run_configSuccesses_le_one calls st, run_jwksSuccesses_le_one calls st⟩⟩

/-- C9 witness: a populated cache answers without any fetch even when the
provider would fail, and a concrete failing-then-retrying trace performs
at most one successful fetch. -/
theorem C9_discovery_cache_single_success_witness :
    getOpenIDConfiguration ⟨some "CONF", none⟩ ⟨500, "X"⟩ =
      (.ok "CONF", ⟨some "CONF", none⟩, FetchEffects.none)
  ∧ ((runClientCalls ⟨none, none⟩
       [.configCall ⟨500, "E"⟩, .configCall ⟨200, "CONF"⟩,
        .configCall ⟨200, "OTHER"⟩]).2).configSuccesses ≤ 1 :=
  ⟨C9_discovery_cache_single_success.1 ⟨some "CONF", none⟩ ⟨500, "X"⟩ "CONF" rfl,
   (C9_discovery_cache_single_success.2.2.2.2 ⟨none, none⟩
     [.configCall ⟨500, "E"⟩, .configCall ⟨200, "CONF"⟩, .configCall ⟨200, "OTHER"⟩]).1⟩

/-- C9 counterexample to the claim as stated: a failed first discovery
fetch followed by a successful retry performs two discovery fetches over
the instance lifetime, contradicting at most one fetch per client
instance regardless of how many operations require it. -/
theorem C9_two_fetches_counterexample :
    ((runClientCalls ⟨none, none⟩
       [.configCall ⟨500, "ERROR"⟩, .configCall ⟨200, "CONF"⟩]).2).configFetches = 2 := by
  decide

end Fief
